import Mathlib

/-!
The browser controller of ai-knowledge-hub (`backend/static/app.js`).

A shallow embedding of the three parts of `app.js` that carry state:

* the gateway `apiCall` (lines 16-26);
* the Query Composer: `currentFilters`, the handlers installed by
  `initBrowseParams` (lines 186-269), the query built by `loadArticles`
  (lines 292-302) and the result range it prints (line 307);
* the Job Monitor: the click handler of `collectBtn` (lines 56-101).

JavaScript is single threaded: a handler runs until it returns or reaches an
`await`.  The Job Monitor is therefore a transition system whose events are
the atomic pieces of the handlers, separated by the `await`s and the timers.
-/

namespace AiKnowledgeHub

/-! ## Gateway -/

/-- A value thrown or rejected with, identified by its message. -/
abbrev JsError := String

/-- What `fetch` followed by `response.json()` can do: the promise of `fetch`
rejects, or it resolves to a response with its `ok` flag, whose body parses
(`Except.ok`) or fails to parse (`Except.error`). -/
inductive FetchOutcome (α : Type) where
  | rejected (err : JsError)
  | response (ok : Bool) (json : Except JsError α)

/-- The options bag given to `apiCall`; `headers` is `options.headers`
(no entry when the bag has none). -/
structure Options where
  method : Option String := none
  body : Option String := none
  headers : List (String × String) := []

/-- The two arguments `apiCall` hands to `fetch`. -/
structure FetchArgs where
  url : String
  method : Option String
  body : Option String
  headers : List (String × String)

/-- The constant `API_BASE` (line 1). -/
def API_BASE : String := "/api"

/-- Object spread `{ ...a, ...b }` on string-keyed records: the keys of `a`
keep their place, a key of `b` overrides. -/
def spread (a b : List (String × String)) : List (String × String) :=
  (a.map fun kv => (kv.1, ((b.lookup kv.1).getD kv.2))) ++
    b.filter fun kv => !(a.map Prod.fst).contains kv.1

/-- Lines 17 and 19: the headers and the arguments of `fetch`. -/
def fetchArgs (endpoint : String) (options : Options) : FetchArgs :=
  let headers := spread [("Content-Type", "application/json")] options.headers
  { url := API_BASE ++ endpoint, method := options.method, body := options.body,
    headers := headers }

/-- The body of the `try` block of `apiCall` (lines 19-21): a rejection of
`fetch`, a response that is not `ok`, and a body that does not parse all
throw. -/
def apiCallTry {α : Type} (outcome : FetchOutcome α) : Except JsError α :=
  match outcome with
  | .rejected err => throw err
  | .response ok json =>
    if !ok then throw "API Request Failed"
    else json

/-- What a call of `apiCall` leaves behind: the settlement of its promise
(`Except.error` is a rejection seen by the caller, `none` is `null`) and the
entries written with `console.error`. -/
structure ApiReturn (α : Type) where
  result : Except JsError (Option α)
  console : List JsError

/-- The function `apiCall` (lines 16-26); `fetch` is the network. -/
def apiCall {α : Type} (fetch : FetchArgs → FetchOutcome α) (endpoint : String)
    (options : Options := {}) : ApiReturn α :=
  match apiCallTry (fetch (fetchArgs endpoint options)) with
  | .ok data => { result := .ok (some data), console := [] }
  | .error err => { result := .ok none, console := [err] }

/-! ## Numbers -/

/-- The number of binary digits of `n`, by halving at most `fuel` times. -/
def bitLengthAux : Nat → Nat → Nat
  | 0, _ => 0
  | fuel + 1, n => if n = 0 then 0 else bitLengthAux fuel (n / 2) + 1

/-- The number of binary digits of a natural number. -/
def bitLength (n : Nat) : Nat :=
  bitLengthAux n n

/-- The double nearest to a natural number: numbers of at most 53 binary
digits are doubles; a longer one is rounded to 53 significant digits, to the
nearest, a tie going to the even one. -/
def roundNat (n : Nat) : Nat :=
  if bitLength n ≤ 53 then n
  else
    let unit := 2 ^ (bitLength n - 53)
    let q := n / unit
    let r := n % unit
    if 2 * r < unit then q * unit
    else if 2 * r > unit then (q + 1) * unit
    else if q % 2 = 0 then q * unit
    else (q + 1) * unit

/-- The Number an arithmetic operation of JavaScript returns when its exact
result is the integer `x`: the nearest double (finite for magnitudes below
2 ^ 1024). -/
def toNumber (x : Int) : Int :=
  x.sign * (roundNat x.natAbs : Int)

/-! ## Query Composer -/

/-- The object `currentFilters` (lines 4-12). -/
structure FilterState where
  category : String
  date : String
  score_min : Int
  trust_levels : List String
  search : String
  sort_by : String
  page : Int
  deriving DecidableEq

/-- The initial value of `currentFilters`. -/
def currentFilters : FilterState :=
  { category := "all", date := "all", score_min := 0, trust_levels := [],
    search := "", sort_by := "published_at", page := 1 }

/-- The methods of the platform's `Date` object that `getIsoDateFrom` calls,
over a type `D` of time values. -/
structure DateApi (D : Type) where
  setHours : D → Int → Int → Int → Int → D
  getDate : D → Int
  setDate : D → Int → D
  getMonth : D → Int
  setMonth : D → Int → D
  toISOString : D → String

/-- The function `getIsoDateFrom` (lines 28-39); `now` is `new Date()`. -/
def getIsoDateFrom {D : Type} (api : DateApi D) (now : D) (val : String) : String :=
  if val = "all" then ""
  else
    let d :=
      if val = "today" then api.setHours now 0 0 0 0
      else if val = "week" then api.setDate now (api.getDate now - 7)
      else if val = "month" then api.setMonth now (api.getMonth now - 1)
      else now
    api.toISOString d

/-- A value given to `URLSearchParams`, which turns it into text. -/
inductive ParamVal where
  | num (n : Int)
  | str (s : String)
  deriving DecidableEq

/-- The entries of a `URLSearchParams`, in order. -/
abbrev URLSearchParams := List (String × ParamVal)

/-- The method `URLSearchParams.get`: the first value under a name. -/
def URLSearchParams.get (params : URLSearchParams) (name : String) : Option ParamVal :=
  params.lookup name

/-- The query `loadArticles` builds (lines 292-302). -/
def loadArticlesParams {D : Type} (api : DateApi D) (now : D) (f : FilterState) :
    URLSearchParams :=
  let params : URLSearchParams :=
    [("page", .num f.page), ("per_page", .num 20), ("sort_by", .str f.sort_by)]
  let params := if f.category ≠ "all" then params ++ [("category", .str f.category)] else params
  let params :=
    if f.date ≠ "all" then params ++ [("date_from", .str (getIsoDateFrom api now f.date))]
    else params
  let params := if f.score_min > 0 then params ++ [("score_min", .num f.score_min)] else params
  let params :=
    match f.trust_levels with
    | first :: _ => params ++ [("trust_level", .str first)]
    | [] => params
  params

/-- The browse page as far as the handlers of `initBrowseParams` read and
write it: `currentFilters`, the values of the trust buttons that carry the
class `active`, and the snapshots of `currentFilters` at each call of
`loadArticles` (the query is built from it before the first `await`). -/
structure Browse where
  filters : FilterState
  trustActive : List String
  loads : List FilterState
  deriving DecidableEq

/-- The browse page when the script has loaded: no trust button active. -/
def Browse.init : Browse :=
  { filters := currentFilters, trustActive := [], loads := [] }

/-- A call of `loadArticles()` from a handler. -/
def Browse.loadArticles (s : Browse) : Browse :=
  { s with loads := s.loads ++ [s.filters] }

/-- The category buttons (lines 189-196). -/
def categoryClick (val : String) (s : Browse) : Browse :=
  let s := { s with filters := { s.filters with category := val } }
  let s := { s with filters := { s.filters with page := 1 } }
  s.loadArticles

/-- The date buttons (lines 201-208). -/
def dateClick (val : String) (s : Browse) : Browse :=
  let s := { s with filters := { s.filters with date := val } }
  let s := { s with filters := { s.filters with page := 1 } }
  s.loadArticles

/-- The `change` handler of the score slider (lines 215-220); `value` is
`parseInt(e.target.value)`. -/
def scoreRangeChange (value : Int) (s : Browse) : Browse :=
  let s := { s with filters := { s.filters with score_min := value } }
  let s := { s with filters := { s.filters with page := 1 } }
  s.loadArticles

/-- The trust buttons (lines 228-239): the class `active` of the clicked
button is toggled first and decides the branch. -/
def trustToggleClick (val : String) (s : Browse) : Browse :=
  let s :=
    if val ∈ s.trustActive then { s with trustActive := s.trustActive.filter (· ≠ val) }
    else { s with trustActive := s.trustActive ++ [val] }
  let s :=
    if val ∈ s.trustActive then
      if !s.filters.trust_levels.contains val then
        { s with filters := { s.filters with trust_levels := s.filters.trust_levels ++ [val] } }
      else s
    else
      { s with filters :=
          { s.filters with trust_levels := s.filters.trust_levels.filter (· ≠ val) } }
  let s := { s with filters := { s.filters with page := 1 } }
  s.loadArticles

/-- The sort selector (lines 245-249). -/
def sortSelectChange (val : String) (s : Browse) : Browse :=
  let s := { s with filters := { s.filters with sort_by := val } }
  let s := { s with filters := { s.filters with page := 1 } }
  s.loadArticles

/-- The previous-page button (lines 256-261); `page--` stores a Number. -/
def prevBtnClick (s : Browse) : Browse :=
  if s.filters.page > 1 then
    let s := { s with filters := { s.filters with page := toNumber (s.filters.page - 1) } }
    s.loadArticles
  else s

/-- The next-page button (lines 264-267); `page++` stores a Number. -/
def nextBtnClick (s : Browse) : Browse :=
  let s := { s with filters := { s.filters with page := toNumber (s.filters.page + 1) } }
  s.loadArticles

/-- The operations of the Query Composer, one per handler. -/
inductive Op where
  | setCategory (val : String)
  | setDateBucket (val : String)
  | setScoreMin (value : Int)
  | toggleTrustLevel (val : String)
  | setSortBy (val : String)
  | prevPage
  | nextPage
  deriving DecidableEq

/-- The handler an operation runs. -/
def Op.apply : Op → Browse → Browse
  | .setCategory val => categoryClick val
  | .setDateBucket val => dateClick val
  | .setScoreMin value => scoreRangeChange value
  | .toggleTrustLevel val => trustToggleClick val
  | .setSortBy val => sortSelectChange val
  | .prevPage => prevBtnClick
  | .nextPage => nextBtnClick

/-- A sequence of operations, first to last. -/
def runOps (ops : List Op) (s : Browse) : Browse :=
  ops.foldl (fun s op => op.apply s) s

/-- The pagination fields of the response of `GET /articles`. -/
structure Envelope where
  total : Int
  page : Int
  per_page : Int
  total_pages : Int
  deriving DecidableEq

/-- The two bounds printed in `resultsCount` (line 307): each of `-`, `*`
and `+` returns a Number, `Math.min` returns one of its arguments. -/
def resultsRange (data : Envelope) : Int × Int :=
  (toNumber (toNumber (toNumber (data.page - 1) * data.per_page) + 1),
   min (toNumber (data.page * data.per_page)) data.total)

/-! ## Job Monitor -/

/-- A JavaScript string: the sequence of its UTF-16 code units. -/
abbrev JsString := List Nat

/-- The code units of one character: one unit in the Basic Multilingual
Plane, a surrogate pair above it. -/
def charUnits (c : Char) : JsString :=
  if c.toNat < 65536 then [c.toNat]
  else [55296 + (c.toNat - 65536) / 1024, 56320 + (c.toNat - 65536) % 1024]

/-- The code units of a list of characters. -/
def utf16Chars : List Char → JsString
  | [] => []
  | c :: rest => charUnits c ++ utf16Chars rest

/-- The JavaScript string of a text. -/
def utf16 (text : String) : JsString :=
  utf16Chars text.data

/-- The method `substring(a, b)`: the code units from the smaller to the
larger of the two indices, each capped by the length. -/
def substring (str : JsString) (a b : Nat) : JsString :=
  (str.take (max a b)).drop (min a b)

/-- The body of the response of `GET /collect/status`. -/
structure StatusData where
  is_collecting : Bool
  message : Option JsString
  last_error : Option JsString
  deriving DecidableEq

/-- Truthiness of a value that is a string or `null`: `null` and the empty
string are falsy. -/
def truthy : Option JsString → Bool
  | some str => str ≠ []
  | none => false

/-- The requests the monitor sends: `POST /collect` and
`GET /collect/status`. -/
inductive Request where
  | collect
  | collectStatus
  deriving DecidableEq

/-- The two functions of the refresh (lines 82-83). -/
inductive Call where
  | loadStats
  | loadArticles
  deriving DecidableEq

/-- The callbacks given to `setTimeout`, each with the `originalHtml` of its
closure: lines 81-90, and lines 86-89 (the same body as lines 96-99). -/
inductive TimeoutAction where
  | refresh (originalHtml : JsString)
  | revert (originalHtml : JsString)
  deriving DecidableEq

/-- A pending `setTimeout`. -/
structure Timeout where
  delay : Nat
  action : TimeoutAction
  deriving DecidableEq

/-- The state the click handler of `collectBtn` reads and writes: the
button, the live `setInterval` timers (handle and `originalHtml` of the
closure), the requests sent so far, the activations suspended at an `await`
(at line 62, and at line 65 with their `checkStatus` handle), the pending
`setTimeout`s, the refresh calls made and the console. -/
structure Monitor where
  innerHTML : JsString
  disabled : Bool
  intervals : List (Nat × JsString)
  nextTimer : Nat
  requests : List Request
  awaitingStart : List JsString
  awaitingPoll : List (Nat × JsString)
  timeouts : List Timeout
  calls : List Call
  console : List JsString
  deriving DecidableEq

/-- The page before any click: the button enabled, showing `html`. -/
def Monitor.init (html : JsString) : Monitor :=
  { innerHTML := html, disabled := false, intervals := [], nextTimer := 0, requests := [],
    awaitingStart := [], awaitingPoll := [], timeouts := [], calls := [], console := [] }

/-- Lines 57-62 up to the `await`: the handler keeps the text of the button,
disables it and sends `POST /collect`. -/
def collectBtnClick (s : Monitor) : Monitor :=
  let originalHtml := s.innerHTML
  { s with
    innerHTML := utf16 "実行中...", disabled := true,
    requests := s.requests ++ [.collect],
    awaitingStart := s.awaitingStart ++ [originalHtml] }

/-- Lines 62-100 from the `await` on: the value of `apiCall` is dropped and
`setInterval` is called; a rejection of the awaited promise runs the `catch`
block. -/
def collectBtnResume (originalHtml : JsString) (outcome : FetchOutcome Unit) (s : Monitor) :
    Monitor :=
  let r := apiCall (fun _ => outcome) "/collect" { method := some "POST" }
  let s := { s with console := s.console ++ r.console.map utf16 }
  match r.result with
  | .ok _ =>
    { s with intervals := s.intervals ++ [(s.nextTimer, originalHtml)],
             nextTimer := s.nextTimer + 1 }
  | .error _ =>
    { s with innerHTML := utf16 "通信エラー",
             timeouts := s.timeouts ++ [{ delay := 3000, action := .revert originalHtml }] }

/-- The interval callback up to its `await` (line 65): `GET /collect/status`
is sent. -/
def checkStatusTick (checkStatus : Nat) (originalHtml : JsString) (s : Monitor) : Monitor :=
  { s with requests := s.requests ++ [.collectStatus],
           awaitingPoll := s.awaitingPoll ++ [(checkStatus, originalHtml)] }

/-- The function `clearInterval`. -/
def clearInterval (handle : Nat) (s : Monitor) : Monitor :=
  { s with intervals := s.intervals.filter fun t => t.1 ≠ handle }

/-- The interval callback from its `await` on (lines 65-92). -/
def checkStatusResume (checkStatus : Nat) (originalHtml : JsString)
    (outcome : FetchOutcome StatusData) (s : Monitor) : Monitor :=
  let r := apiCall (fun _ => outcome) "/collect/status"
  let s := { s with console := s.console ++ r.console.map utf16 }
  match r.result with
  | .error _ => s
  | .ok none => s
  | .ok (some statusData) =>
    if statusData.is_collecting then
      { s with innerHTML :=
          if truthy statusData.message then statusData.message.getD [] else utf16 "収集中..." }
    else
      let s := clearInterval checkStatus s
      let s :=
        if truthy statusData.last_error then
          let last_error := statusData.last_error.getD []
          { s with innerHTML := utf16 "エラー: " ++ substring last_error 0 20 ++ utf16 "...",
                   console := s.console ++ [utf16 "Collection Error: " ++ last_error] }
        else
          { s with innerHTML := utf16 "収集完了" }
      { s with timeouts := s.timeouts ++ [{ delay := 1000, action := .refresh originalHtml }] }

/-- The body of a `setTimeout` callback. -/
def TimeoutAction.run (action : TimeoutAction) (s : Monitor) : Monitor :=
  match action with
  | .refresh originalHtml =>
    { s with calls := s.calls ++ [.loadStats, .loadArticles],
             timeouts := s.timeouts ++ [{ delay := 5000, action := .revert originalHtml }] }
  | .revert originalHtml =>
    { s with innerHTML := originalHtml, disabled := false }

/-- What the event loop can run next: a click of the user on the button, the
settlement of the `i`-th pending `POST /collect`, a firing of the interval
timer `handle`, the settlement of the `i`-th pending `GET /collect/status`,
the firing of the `i`-th pending `setTimeout`. -/
inductive Event where
  | click
  | startSettled (i : Nat) (outcome : FetchOutcome Unit)
  | tick (handle : Nat)
  | pollSettled (i : Nat) (outcome : FetchOutcome StatusData)
  | timeout (i : Nat)

/-- One turn of the event loop.  A click reaches the handler only while the
button is not `disabled` (the browser sends no click to a disabled control);
a timer that is not live does not fire. -/
def Monitor.step (s : Monitor) : Event → Monitor
  | .click => if s.disabled then s else collectBtnClick s
  | .startSettled i outcome =>
    match s.awaitingStart[i]? with
    | none => s
    | some originalHtml =>
      collectBtnResume originalHtml outcome
        { s with awaitingStart := s.awaitingStart.eraseIdx i }
  | .tick handle =>
    match s.intervals.find? fun t => t.1 = handle with
    | none => s
    | some t => checkStatusTick t.1 t.2 s
  | .pollSettled i outcome =>
    match s.awaitingPoll[i]? with
    | none => s
    | some p =>
      checkStatusResume p.1 p.2 outcome { s with awaitingPoll := s.awaitingPoll.eraseIdx i }
  | .timeout i =>
    match s.timeouts[i]? with
    | none => s
    | some t => t.action.run { s with timeouts := s.timeouts.eraseIdx i }

/-- A sequence of turns, first to last. -/
def Monitor.run (s : Monitor) (events : List Event) : Monitor :=
  events.foldl Monitor.step s

/-- The number of `GET /collect/status` requests sent so far. -/
def Monitor.polls (s : Monitor) : Nat :=
  s.requests.count .collectStatus

/-- The number of `POST /collect` requests sent so far. -/
def Monitor.starts (s : Monitor) : Nat :=
  s.requests.count .collect

/-- A response with a success status whose body parses to `data`. -/
def okResponse {α : Type} (data : α) : FetchOutcome α :=
  .response true (.ok data)

/-- A poll in which the answer arrives before the next turn: the timer
`handle` fires and its request settles with `outcome`. -/
def pollRound (handle : Nat) (outcome : FetchOutcome StatusData) : List Event :=
  [.tick handle, .pollSettled 0 outcome]

/-! ## Runs of the Job Monitor -/

/-- Whether an event is a click of the user. -/
def Event.isClick : Event → Bool
  | .click => true
  | _ => false

/-- Polls answered one after the other while the job is active: each answer
arrives before the timer fires again. -/
def activePolls (handle : Nat) : List StatusData → List Event
  | [] => []
  | data :: rest => pollRound handle (okResponse data) ++ activePolls handle rest

/-- A job that starts and is polled while active: the click, the success of
`POST /collect`, and one answered poll for each of `replies`. -/
def startedRun (replies : List StatusData) : List Event :=
  [.click, .startSettled 0 (okResponse ())] ++ activePolls 0 replies

/-- The answer of a finished job without error. -/
def finishedOk : StatusData :=
  { is_collecting := false, message := none, last_error := none }

/-- A run in which `POST /collect` fails with a network error, the timer
fires once and the poll is answered by a backend that is idle. -/
def failedStartRun : List Event :=
  [.click, .startSettled 0 (.rejected "Failed to fetch"), .tick 0,
   .pollSettled 0 (okResponse finishedOk)]

/-- A run with slow answers.  The timer fires twice before the first answer
arrives; both answers report the job finished, so two refreshes and two
reverts are scheduled.  After the first revert the user starts a second job;
the second revert enables the button while that job is polled, and the user
clicks once more. -/
def overlappingRun : List Event :=
  [.click, .startSettled 0 (okResponse ()),
   .tick 0, .tick 0,
   .pollSettled 0 (okResponse finishedOk), .pollSettled 0 (okResponse finishedOk),
   .timeout 0, .timeout 0,
   .timeout 0,
   .click, .startSettled 0 (okResponse ()),
   .timeout 0,
   .click, .startSettled 0 (okResponse ())]

/-- The monitor with one job running and its first poll sent. -/
def pollingState : Monitor :=
  (Monitor.init (utf16 "収集")).run [.click, .startSettled 0 (okResponse ()), .tick 0]

/-- A finished job whose `last_error` is the empty string. -/
def finishedEmptyError : StatusData :=
  { is_collecting := false, message := none, last_error := some (utf16 "") }

/-- A finished job with an error text of more than 20 code units. -/
def finishedTimeout : StatusData :=
  { is_collecting := false, message := none, last_error := some (utf16 "feed timeout after 30 seconds") }

/-- The three active answers of scenario B of the specification. -/
def scenarioB : List StatusData :=
  [{ is_collecting := true, message := some (utf16 "収集中 1/3"), last_error := none },
   { is_collecting := true, message := some (utf16 "収集中 2/3"), last_error := none },
   { is_collecting := true, message := none, last_error := none }]

/-- The states the page can reach from its initial state, by any sequence of
events. -/
def Monitor.Reachable (s : Monitor) : Prop :=
  ∃ html events, s = (Monitor.init html).run events

/-- Every handle in use was given out by `setInterval` before. -/
def Monitor.Fresh (s : Monitor) : Prop :=
  (∀ t ∈ s.intervals, t.1 < s.nextTimer) ∧ (∀ p ∈ s.awaitingPoll, p.1 < s.nextTimer)

/-- The timer `handle` was given out and is no longer live. -/
def Monitor.Cancelled (handle : Nat) (s : Monitor) : Prop :=
  handle < s.nextTimer ∧ ∀ t ∈ s.intervals, t.1 ≠ handle

/-- A job whose first answer is slow: the timer fires twice before the first
answer arrives, both answers report the job finished without error, and the
four timeouts fire. -/
def overlappingPolls : List Event :=
  [.click, .startSettled 0 (okResponse ()),
   .tick 0, .tick 0,
   .pollSettled 0 (okResponse finishedOk), .pollSettled 0 (okResponse finishedOk),
   .timeout 0, .timeout 0, .timeout 0, .timeout 0]

/-- The monitor after `overlappingRun`, with two timers live, when timer 1
has sent a poll. -/
def twoTimerPolling : Monitor :=
  (Monitor.init (utf16 "収集")).run (overlappingRun ++ [.tick 1])

/-- Whether an event keeps the polls in order: the timer does not fire
while an answer is outstanding. -/
def Monitor.inOrder (s : Monitor) : Event → Bool
  | .tick _ => s.awaitingPoll.isEmpty
  | _ => true

/-- Whether every event of a run keeps the polls in order. -/
def Monitor.ordered (s : Monitor) : List Event → Bool
  | [] => true
  | e :: rest => s.inOrder e && (s.step e).ordered rest

/-- The states of a monitor that supervises at most one job: idle with the
button enabled; or, with the button disabled, waiting for `POST /collect`,
polling on one timer with at most one answer outstanding, or showing the
outcome with one timeout pending. -/
def Monitor.Supervised (s : Monitor) : Prop :=
  (s.disabled = false ∧ s.intervals = [] ∧ s.awaitingStart = [] ∧ s.awaitingPoll = [] ∧
    s.timeouts = []) ∨
  (s.disabled = true ∧ s.intervals = [] ∧ (∃ o, s.awaitingStart = [o]) ∧
    s.awaitingPoll = [] ∧ s.timeouts = []) ∨
  (s.disabled = true ∧ (∃ t, s.intervals = [t] ∧ (s.awaitingPoll = [] ∨ s.awaitingPoll = [t])) ∧
    s.awaitingStart = [] ∧ s.timeouts = []) ∨
  (s.disabled = true ∧ s.intervals = [] ∧ s.awaitingStart = [] ∧ s.awaitingPoll = [] ∧
    ∃ t, s.timeouts = [t])

/-! ## The trust selection in the words of the specification -/

/-- Following the specification: the selection of trust levels, recording for
each active level the time at which it was activated; `clock` counts the
toggles made so far. -/
structure Selection where
  clock : Nat
  activatedAt : String → Option Nat

/-- The empty selection. -/
def Selection.empty : Selection :=
  { clock := 0, activatedAt := fun _ => none }

/-- A toggle adds the level if it is inactive and removes it if it is
active. -/
def Selection.toggle (sel : Selection) (level : String) : Selection :=
  { clock := sel.clock + 1,
    activatedAt := fun l =>
      if l = level then
        if (sel.activatedAt level).isSome then none else some sel.clock
      else sel.activatedAt l }

/-- The selection after a sequence of toggles, starting from the empty
one. -/
def Selection.after (toggles : List String) : Selection :=
  toggles.foldl Selection.toggle Selection.empty

/-- The first-added active level: it is active, and no active level was
activated earlier. -/
def Selection.IsFirstAdded (sel : Selection) (level : String) : Prop :=
  ∃ t, sel.activatedAt level = some t ∧ ∀ l t', sel.activatedAt l = some t' → t ≤ t'

/-- What ties the browse page to the selection of the specification: the
buttons carrying `active` and the entries of `trust_levels` are the active
levels, `trust_levels` has no duplicate and lists them in the order of their
activation, and every activation lies in the past. -/
structure TrustInv (s : Browse) (sel : Selection) : Prop where
  buttons : ∀ l, l ∈ s.trustActive ↔ (sel.activatedAt l).isSome = true
  levels : ∀ l, l ∈ s.filters.trust_levels ↔ (sel.activatedAt l).isSome = true
  nodup : s.filters.trust_levels.Nodup
  ordered : s.filters.trust_levels.Pairwise fun a b =>
    ∀ ta tb, sel.activatedAt a = some ta → sel.activatedAt b = some tb → ta < tb
  past : ∀ l t, sel.activatedAt l = some t → t < sel.clock

/-- The toggles of a list of trust buttons, as operations. -/
def trustToggles (toggles : List String) : List Op :=
  toggles.map Op.toggleTrustLevel

/-- The last page of 45 results in pages of 20. -/
def lastPageOf45 : Envelope :=
  { total := 45, page := 3, per_page := 20, total_pages := 3 }

/-- The second and last page of 2 ^ 54 results in pages of 2 ^ 53. -/
def hugePage : Envelope :=
  { total := 18014398509481984, page := 2, per_page := 9007199254740992, total_pages := 2 }

/-! ## Concrete data for the examples -/

/-- Days from 1970-01-01 to the day `d` of month `m` (1 to 12) of year `y`
in the proleptic Gregorian calendar. -/
def daysFromCivil (y m d : Int) : Int :=
  let y := if m ≤ 2 then y - 1 else y
  let era := y / 400
  let yoe := y - era * 400
  let mp := (m + 9) % 12
  let doy := (153 * mp + 2) / 5 + d - 1
  let doe := yoe * 365 + yoe / 4 - yoe / 100 + doy
  era * 146097 + doe - 719468

/-- Year, month (1 to 12) and day of the month of a day counted from
1970-01-01. -/
def civilFromDays (z : Int) : Int × Int × Int :=
  let z := z + 719468
  let era := z / 146097
  let doe := z - era * 146097
  let yoe := (doe - doe / 1460 + doe / 36524 - doe / 146096) / 365
  let doy := doe - (365 * yoe + yoe / 4 - yoe / 100)
  let mp := (5 * doy + 2) / 153
  let d := doy - (153 * mp + 2) / 5 + 1
  let m := if mp < 10 then mp + 3 else mp - 9
  (if m ≤ 2 then yoe + era * 400 + 1 else yoe + era * 400, m, d)

/-- Milliseconds in a day. -/
def msPerDay : Int := 86400000

/-- A non-negative number in decimal, padded with zeros to `width`. -/
def padStart (width : Nat) (n : Int) : String :=
  let digits := toString n.toNat
  String.mk (List.replicate (width - digits.length) '0') ++ digits

/-- The methods of `Date` for a browser whose time zone is UTC, on time
values in milliseconds since 1970-01-01T00:00:00Z (years 0 to 9999). -/
def utcDate : DateApi Int where
  setHours t h m sec ms := t / msPerDay * msPerDay + ((h * 60 + m) * 60 + sec) * 1000 + ms
  getDate t := (civilFromDays (t / msPerDay)).2.2
  setDate t n :=
    let c := civilFromDays (t / msPerDay)
    (daysFromCivil c.1 c.2.1 1 + (n - 1)) * msPerDay + t % msPerDay
  getMonth t := (civilFromDays (t / msPerDay)).2.1 - 1
  setMonth t k :=
    let c := civilFromDays (t / msPerDay)
    (daysFromCivil (c.1 + k / 12) (k % 12 + 1) 1 + (c.2.2 - 1)) * msPerDay + t % msPerDay
  toISOString t :=
    let c := civilFromDays (t / msPerDay)
    let r := t % msPerDay
    padStart 4 c.1 ++ "-" ++ padStart 2 c.2.1 ++ "-" ++ padStart 2 c.2.2 ++ "T" ++
      padStart 2 (r / 3600000) ++ ":" ++ padStart 2 (r / 60000 % 60) ++ ":" ++
      padStart 2 (r / 1000 % 60) ++ "." ++ padStart 3 (r % 1000) ++ "Z"

/-- The filter state of scenario A of the specification. -/
def scenarioA : FilterState :=
  { category := "ai", date := "week", score_min := 60, trust_levels := ["HIGH"],
    search := "", sort_by := "score", page := 1 }


/-! ## Numbers: theorems -/

/-- With enough fuel, `bitLengthAux` is the position of the leading binary
digit. -/
theorem bitLengthAux_spec (fuel n : Nat) (h : n ≤ fuel) :
    n < 2 ^ bitLengthAux fuel n ∧ (0 < n → 2 ^ (bitLengthAux fuel n - 1) ≤ n) := by
  induction fuel generalizing n with
  | zero =>
    have : n = 0 := by omega
    subst this
    simp [bitLengthAux]
  | succ fuel ih =>
    by_cases hn : n = 0
    · subst hn; simp [bitLengthAux]
    · have hhalf : n / 2 ≤ fuel := by omega
      obtain ⟨h1, h2⟩ := ih (n / 2) hhalf
      simp only [bitLengthAux, hn, if_false, Nat.add_sub_cancel]
      refine ⟨?_, fun _ => ?_⟩
      · rw [pow_succ]; omega
      · by_cases hz : n / 2 = 0
        · have hb : bitLengthAux fuel (n / 2) = 0 := by
            rw [hz]; cases fuel <;> simp [bitLengthAux]
          rw [hb]; simp; omega
        · have h3 := h2 (by omega)
          have hpos : 0 < bitLengthAux fuel (n / 2) := by
            by_contra hc
            have hb : bitLengthAux fuel (n / 2) = 0 := by omega
            rw [hb] at h1
            simp at h1
            exact hz h1
          have hpow : 2 ^ bitLengthAux fuel (n / 2) =
              2 ^ (bitLengthAux fuel (n / 2) - 1) * 2 := by
            rw [← pow_succ]; congr 1; omega
          omega

/-- A natural number below 2 ^ 53 is a double. -/
theorem roundNat_exact (n : Nat) (h : n < 2 ^ 53) : roundNat n = n := by
  have hb : bitLength n ≤ 53 := by
    by_contra hc
    have h0 : 0 < n := by
      by_contra h0
      have : n = 0 := by omega
      subst this
      simp [bitLength, bitLengthAux] at hc
    have h2 := (bitLengthAux_spec n n le_rfl).2 h0
    have h3 : 2 ^ 53 ≤ 2 ^ (bitLengthAux n n - 1) :=
      Nat.pow_le_pow_right (by decide) (by unfold bitLength at hc; omega)
    omega
  simp [roundNat, hb]

/-- Rounding a natural number that is at least 2 ^ 53 gives at least
2 ^ 53. -/
theorem roundNat_large (n : Nat) (h : 2 ^ 53 ≤ n) : 2 ^ 53 ≤ roundNat n := by
  by_cases hb : bitLength n ≤ 53
  · simpa [roundNat, hb] using h
  · have h0 : 0 < n := lt_of_lt_of_le (by positivity) h
    have hlow := (bitLengthAux_spec n n le_rfl).2 h0
    have he : bitLength n - 1 = 52 + (bitLength n - 53) := by omega
    have hlow2 : 2 ^ 52 * 2 ^ (bitLength n - 53) ≤ n := by
      rw [← pow_add, ← he]; exact hlow
    have hunit : 0 < 2 ^ (bitLength n - 53) := by positivity
    have hq : 2 ^ 52 ≤ n / 2 ^ (bitLength n - 53) :=
      (Nat.le_div_iff_mul_le hunit).2 hlow2
    have h2 : 2 ≤ 2 ^ (bitLength n - 53) := by
      calc 2 = 2 ^ 1 := by norm_num
        _ ≤ 2 ^ (bitLength n - 53) := Nat.pow_le_pow_right (by decide) (by omega)
    have hbase : 2 ^ 53 ≤ n / 2 ^ (bitLength n - 53) * 2 ^ (bitLength n - 53) := by
      calc 2 ^ 53 = 2 ^ 52 * 2 := by norm_num
        _ ≤ n / 2 ^ (bitLength n - 53) * 2 ^ (bitLength n - 53) := Nat.mul_le_mul hq h2
    have hup : n / 2 ^ (bitLength n - 53) * 2 ^ (bitLength n - 53) ≤
        (n / 2 ^ (bitLength n - 53) + 1) * 2 ^ (bitLength n - 53) :=
      Nat.mul_le_mul_right _ (Nat.le_succ _)
    simp only [roundNat, hb, if_false]
    split_ifs <;> omega

/-- A non-negative integer below 2 ^ 53 is a Number. -/
theorem toNumber_exact (x : Int) (h0 : 0 ≤ x) (h : x < 2 ^ 53) : toNumber x = x := by
  obtain ⟨n, rfl⟩ := Int.eq_ofNat_of_zero_le h0
  have hn : n < 2 ^ 53 := by exact_mod_cast h
  unfold toNumber
  rw [Int.natAbs_ofNat, roundNat_exact n hn]
  rcases Nat.eq_zero_or_pos n with hz | hp
  · subst hz; simp
  · rw [Int.sign_eq_one_of_pos (by exact_mod_cast hp)]; simp

/-- The Number of an integer that is at least 2 ^ 53 is at least 2 ^ 53. -/
theorem toNumber_large (x : Int) (h : 2 ^ 53 ≤ x) : 2 ^ 53 ≤ toNumber x := by
  have h0 : 0 ≤ x := le_trans (by positivity) h
  obtain ⟨n, rfl⟩ := Int.eq_ofNat_of_zero_le h0
  have hn : 2 ^ 53 ≤ n := by exact_mod_cast h
  have hp : 0 < n := lt_of_lt_of_le (by positivity) hn
  unfold toNumber
  rw [Int.natAbs_ofNat, Int.sign_eq_one_of_pos (by exact_mod_cast hp), one_mul]
  exact_mod_cast roundNat_large n hn

/-- The Number of a positive integer is positive. -/
theorem toNumber_pos (x : Int) (h : 1 ≤ x) : 1 ≤ toNumber x := by
  by_cases hx : x < 2 ^ 53
  · rw [toNumber_exact x (by omega) hx]; exact h
  · exact le_trans (by norm_num) (toNumber_large x (by omega))

/-! ## Gateway: theorems -/

/-- C9. For every network behaviour, endpoint and options bag the promise of
`apiCall` is fulfilled, never rejected: with the parsed body when the
response has a success status and its body parses, with `null` when `fetch`
rejects, when the status is not a success, and when the body does not
parse. -/
theorem apiCall_fulfils {α : Type} (fetch : FetchArgs → FetchOutcome α) (endpoint : String)
    (options : Options) :
    (apiCall fetch endpoint options).result =
      .ok (match fetch (fetchArgs endpoint options) with
        | .response true (.ok data) => some data
        | .response true (.error _) => none
        | .response false _ => none
        | .rejected _ => none) := by
  unfold apiCall apiCallTry
  cases h : fetch (fetchArgs endpoint options) with
  | rejected err => rfl
  | response ok json =>
    cases ok with
    | false => rfl
    | true => cases json <;> rfl

/-! ## Query Composer: theorems -/

/-- C5. For every filter state with `score_min ≥ 0` the query of
`loadArticles` carries `page`, `per_page = 20` and `sort_by`; it carries
`category`, `date_from`, `score_min` and `trust_level` exactly when the
filter is not at its no-filter value, with the value of the filter (for
`date_from` the bound `getIsoDateFrom` computes, for `trust_level` the first
entry of `trust_levels`); it carries nothing else; and scenario A gives the
seven parameters of the specification, `date_from` being the current date
with its day of the month lowered by 7. -/
theorem loadArticles_query {D : Type} (api : DateApi D) (now : D) (f : FilterState)
    (hscore : 0 ≤ f.score_min) :
    (loadArticlesParams api now f).get "page" = some (.num f.page) ∧
    (loadArticlesParams api now f).get "per_page" = some (.num 20) ∧
    (loadArticlesParams api now f).get "sort_by" = some (.str f.sort_by) ∧
    (loadArticlesParams api now f).get "category" =
      (if f.category = "all" then none else some (.str f.category)) ∧
    (loadArticlesParams api now f).get "date_from" =
      (if f.date = "all" then none else some (.str (getIsoDateFrom api now f.date))) ∧
    (loadArticlesParams api now f).get "score_min" =
      (if f.score_min = 0 then none else some (.num f.score_min)) ∧
    (loadArticlesParams api now f).get "trust_level" = f.trust_levels.head?.map .str ∧
    (∀ name, name ∉ ["page", "per_page", "sort_by", "category", "date_from", "score_min",
        "trust_level"] → (loadArticlesParams api now f).get name = none) ∧
    loadArticlesParams api now scenarioA =
      [("page", .num 1), ("per_page", .num 20), ("sort_by", .str "score"),
       ("category", .str "ai"),
       ("date_from", .str (api.toISOString (api.setDate now (api.getDate now - 7)))),
       ("score_min", .num 60), ("trust_level", .str "HIGH")] := by
  have hs : (f.score_min > 0) ↔ ¬ f.score_min = 0 := by omega
  have hpos : f.score_min = 0 → ¬ f.score_min > 0 := by omega
  refine ⟨?_, ?_, ?_, ?_, ?_, ?_, ?_, ?_, ?_⟩
  case refine_9 => rfl
  case refine_8 =>
    intro name hname
    simp only [List.mem_cons, List.mem_singleton, List.not_mem_nil, or_false, not_or] at hname
    obtain ⟨h1, h2, h3, h4, h5, h6, h7⟩ := hname
    have b1 : (name == "page") = false := by simpa using h1
    have b2 : (name == "per_page") = false := by simpa using h2
    have b3 : (name == "sort_by") = false := by simpa using h3
    have b4 : (name == "category") = false := by simpa using h4
    have b5 : (name == "date_from") = false := by simpa using h5
    have b6 : (name == "score_min") = false := by simpa using h6
    have b7 : (name == "trust_level") = false := by simpa using h7
    simp only [loadArticlesParams, URLSearchParams.get]
    rcases htl : f.trust_levels with _ | ⟨first, rest⟩ <;>
    by_cases hc : f.category = "all" <;> by_cases hd : f.date = "all" <;>
    by_cases hz : f.score_min = 0 <;>
    simp [hc, hd, hz, hs, hpos, List.lookup, htl, b1, b2, b3, b4, b5, b6, b7]
  all_goals
    simp only [loadArticlesParams, URLSearchParams.get]
    rcases htl : f.trust_levels with _ | ⟨first, rest⟩ <;>
    by_cases hc : f.category = "all" <;> by_cases hd : f.date = "all" <;>
    by_cases hz : f.score_min = 0 <;>
    simp [hc, hd, hz, hs, hpos, List.lookup, htl]

/-- C5 at scenario A, in a browser on UTC at 2024-03-07T12:00:00.123Z. -/
theorem loadArticles_query_scenarioA :
    0 ≤ scenarioA.score_min ∧
    (loadArticlesParams utcDate 1709812800123 scenarioA).get "score_min" =
      (if scenarioA.score_min = 0 then none else some (.num scenarioA.score_min)) ∧
    (loadArticlesParams utcDate 1709812800123 scenarioA).get "date_from" =
      (if scenarioA.date = "all" then none
       else some (.str (getIsoDateFrom utcDate 1709812800123 scenarioA.date))) :=
  ⟨by decide,
   (loadArticles_query utcDate 1709812800123 scenarioA (by decide)).2.2.2.2.2.1,
   (loadArticles_query utcDate 1709812800123 scenarioA (by decide)).2.2.2.2.1⟩

/-- C7. In every state of the browse page, hence after every sequence of
operations: an operation on category, date bucket, score, trust levels or
sort key leaves `page = 1`, and the two page operations leave every other
field of `currentFilters` as it was. -/
theorem page_reset_and_page_only (s : Browse) (op : Op) :
    match op with
    | .prevPage | .nextPage =>
      (op.apply s).filters.category = s.filters.category ∧
      (op.apply s).filters.date = s.filters.date ∧
      (op.apply s).filters.score_min = s.filters.score_min ∧
      (op.apply s).filters.trust_levels = s.filters.trust_levels ∧
      (op.apply s).filters.sort_by = s.filters.sort_by ∧
      (op.apply s).filters.search = s.filters.search
    | _ => (op.apply s).filters.page = 1 := by
  cases op with
  | prevPage =>
    simp only [Op.apply, prevBtnClick, Browse.loadArticles]
    split_ifs <;> simp
  | nextPage => simp [Op.apply, nextBtnClick, Browse.loadArticles]
  | setCategory val => rfl
  | setDateBucket val => rfl
  | setScoreMin value => rfl
  | setSortBy val => rfl
  | toggleTrustLevel val =>
    simp only [Op.apply, trustToggleClick, Browse.loadArticles]

/-- The handler of the previous-page button returns the state it was given
when `page` is 1. -/
theorem prevBtnClick_first_page (s : Browse) (hpage : s.filters.page = 1) :
    prevBtnClick s = s := by
  simp [prevBtnClick, hpage]

/-- Every handler keeps `page ≥ 1`. -/
theorem apply_page_pos (op : Op) (s : Browse) (h : 1 ≤ s.filters.page) :
    1 ≤ (op.apply s).filters.page := by
  cases op with
  | prevPage =>
    simp only [Op.apply, prevBtnClick, Browse.loadArticles]
    split_ifs with hp
    · show 1 ≤ toNumber (s.filters.page - 1)
      exact toNumber_pos _ (by omega)
    · exact h
  | nextPage =>
    show 1 ≤ toNumber (s.filters.page + 1)
    exact toNumber_pos _ (by omega)
  | setCategory val => exact le_refl _
  | setDateBucket val => exact le_refl _
  | setScoreMin value => exact le_refl _
  | setSortBy val => exact le_refl _
  | toggleTrustLevel val =>
    simp only [Op.apply, trustToggleClick, Browse.loadArticles]
    exact le_refl _

/-- Any sequence of handlers keeps `page ≥ 1`. -/
theorem runOps_page_pos (ops : List Op) (s : Browse) (h : 1 ≤ s.filters.page) :
    1 ≤ (runOps ops s).filters.page := by
  induction ops generalizing s with
  | nil => exact h
  | cons op ops ih => exact ih (op.apply s) (apply_page_pos op s h)

/-- C8. At `page = 1` the previous-page handler returns the whole state
unchanged, the list of `loadArticles` calls included, so any number of
applications equals one; and `page ≥ 1` in every state reached from the
initial one by the operations of the Query Composer. -/
theorem prevPage_noop_at_first_page (s : Browse) (hpage : s.filters.page = 1) (k : Nat)
    (ops : List Op) :
    prevBtnClick s = s ∧ (prevBtnClick s).loads = s.loads ∧
    prevBtnClick^[k + 1] s = prevBtnClick s ∧
    1 ≤ (runOps ops Browse.init).filters.page := by
  have h1 := prevBtnClick_first_page s hpage
  refine ⟨h1, by rw [h1], ?_, runOps_page_pos ops _ (by decide)⟩
  rw [h1]
  exact Function.iterate_fixed h1 (k + 1)

/-- C8 on the initial page, three clicks, after a short session. -/
theorem prevPage_noop_at_first_page_init :
    Browse.init.filters.page = 1 ∧ prevBtnClick Browse.init = Browse.init ∧
    (prevBtnClick Browse.init).loads = Browse.init.loads ∧
    prevBtnClick^[2 + 1] Browse.init = prevBtnClick Browse.init ∧
    1 ≤ (runOps [.nextPage, .prevPage, .prevPage, .setCategory "ai", .prevPage]
      Browse.init).filters.page :=
  ⟨by decide, prevPage_noop_at_first_page Browse.init (by decide) 2
    [.nextPage, .prevPage, .prevPage, .setCategory "ai", .prevPage]⟩

/-- C10 fails on large numbers: with `total = 2 ^ 54`, `page = 2` and
`per_page = 2 ^ 53` the premises hold, the sum `2 ^ 53 + 1` is rounded to
`2 ^ 53`, and the printed range holds one result more than a page. -/
theorem resultsRange_rounds_large_start :
    (1 ≤ hugePage.per_page ∧ 1 ≤ hugePage.total ∧ 1 ≤ hugePage.page ∧
      hugePage.page ≤ ⌈(hugePage.total : ℚ) / (hugePage.per_page : ℚ)⌉) ∧
    (hugePage.page - 1) * hugePage.per_page + 1 = 9007199254740993 ∧
    (resultsRange hugePage).1 = 9007199254740992 ∧
    (resultsRange hugePage).2 = 18014398509481984 ∧
    ¬ ((resultsRange hugePage).2 - (resultsRange hugePage).1 + 1 ≤ hugePage.per_page) := by
  have hlast : hugePage.page ≤ ⌈(hugePage.total : ℚ) / (hugePage.per_page : ℚ)⌉ := by
    have h1 : (1 : Int) < ⌈(hugePage.total : ℚ) / (hugePage.per_page : ℚ)⌉ := by
      rw [Int.lt_ceil]; norm_num [hugePage]
    show (2 : Int) ≤ _
    omega
  exact ⟨⟨by decide, by decide, by decide, hlast⟩, by decide, by decide, by decide, by decide⟩

/-- C10, amended.  For a response envelope whose `total`, `page` and
`per_page` are below 2 ^ 53, with `per_page ≥ 1`, `total ≥ 1` and
`1 ≤ page ≤ ⌈total / per_page⌉`, the printed range runs from
`start = (page − 1) · per_page + 1` to `end = min (page · per_page) total`
with `1 ≤ start ≤ end ≤ total` and at most `per_page` results in it. -/
theorem resultsRange_bounds (data : Envelope) (hper : 1 ≤ data.per_page)
    (htotal : 1 ≤ data.total) (hpage : 1 ≤ data.page)
    (hlast : data.page ≤ ⌈(data.total : ℚ) / (data.per_page : ℚ)⌉)
    (hsafe : data.total < 2 ^ 53 ∧ data.page < 2 ^ 53 ∧ data.per_page < 2 ^ 53) :
    resultsRange data =
      ((data.page - 1) * data.per_page + 1, min (data.page * data.per_page) data.total) ∧
    1 ≤ (resultsRange data).1 ∧ (resultsRange data).1 ≤ (resultsRange data).2 ∧
    (resultsRange data).2 ≤ data.total ∧
    (resultsRange data).2 - (resultsRange data).1 + 1 ≤ data.per_page := by
  obtain ⟨hst, hsp, _⟩ := hsafe
  have hlt : (data.page - 1) * data.per_page < data.total := by
    have h1 : data.page - 1 < ⌈(data.total : ℚ) / (data.per_page : ℚ)⌉ := by omega
    rw [Int.lt_ceil] at h1
    have hq : (0 : ℚ) < (data.per_page : ℚ) := by exact_mod_cast hper
    rw [lt_div_iff₀ hq] at h1
    exact_mod_cast h1
  have h0 : 0 ≤ (data.page - 1) * data.per_page := by
    apply mul_nonneg <;> omega
  have hmul : data.page * data.per_page = (data.page - 1) * data.per_page + data.per_page := by
    ring
  have e1 : toNumber (data.page - 1) = data.page - 1 :=
    toNumber_exact _ (by omega) (by omega)
  have e2 : toNumber ((data.page - 1) * data.per_page) = (data.page - 1) * data.per_page :=
    toNumber_exact _ h0 (by omega)
  have e3 : toNumber ((data.page - 1) * data.per_page + 1) =
      (data.page - 1) * data.per_page + 1 :=
    toNumber_exact _ (by omega) (by omega)
  have e4 : min (toNumber (data.page * data.per_page)) data.total =
      min (data.page * data.per_page) data.total := by
    by_cases hbig : data.page * data.per_page < 2 ^ 53
    · rw [toNumber_exact _ (by omega) hbig]
    · have hl := toNumber_large (data.page * data.per_page) (by omega)
      rw [min_eq_right (by omega), min_eq_right (by omega)]
  have hrange : resultsRange data =
      ((data.page - 1) * data.per_page + 1, min (data.page * data.per_page) data.total) := by
    simp only [resultsRange, e1, e2, e3, e4]
  rw [hrange]
  refine ⟨rfl, by show (1 : Int) ≤ _ + 1; omega, ?_, min_le_right _ _, ?_⟩
  · show _ ≤ min _ _
    rw [le_min_iff]; constructor <;> omega
  · have := min_le_left (data.page * data.per_page) data.total
    show min _ _ - _ + 1 ≤ _
    omega

/-- C10, amended, on the last page of 45 results in pages of 20: the range
is 41 to 45. -/
theorem resultsRange_bounds_last_page :
    (1 ≤ lastPageOf45.per_page ∧ 1 ≤ lastPageOf45.total ∧ 1 ≤ lastPageOf45.page ∧
      lastPageOf45.page ≤ ⌈(lastPageOf45.total : ℚ) / (lastPageOf45.per_page : ℚ)⌉ ∧
      lastPageOf45.total < 2 ^ 53 ∧ lastPageOf45.page < 2 ^ 53 ∧
      lastPageOf45.per_page < 2 ^ 53) ∧
    resultsRange lastPageOf45 = (41, 45) ∧
    1 ≤ (resultsRange lastPageOf45).1 ∧
    (resultsRange lastPageOf45).1 ≤ (resultsRange lastPageOf45).2 ∧
    (resultsRange lastPageOf45).2 ≤ lastPageOf45.total ∧
    (resultsRange lastPageOf45).2 - (resultsRange lastPageOf45).1 + 1 ≤
      lastPageOf45.per_page := by
  have hlast : lastPageOf45.page ≤
      ⌈(lastPageOf45.total : ℚ) / (lastPageOf45.per_page : ℚ)⌉ := by
    have h2 : (2 : Int) < ⌈(lastPageOf45.total : ℚ) / (lastPageOf45.per_page : ℚ)⌉ := by
      rw [Int.lt_ceil]; norm_num [lastPageOf45]
    show (3 : Int) ≤ _
    omega
  exact ⟨⟨by decide, by decide, by decide, hlast, by decide, by decide, by decide⟩, by decide,
    (resultsRange_bounds lastPageOf45 (by decide) (by decide) (by decide) hlast
      ⟨by decide, by decide, by decide⟩).2⟩

/-! ## Trust levels: theorems -/

/-- The handler of a trust button whose class `active` is set: the class is
removed and the value filtered out of `trust_levels`. -/
theorem trustToggleClick_active (val : String) (s : Browse) (h : val ∈ s.trustActive) :
    (trustToggleClick val s).trustActive = s.trustActive.filter (· ≠ val) ∧
    (trustToggleClick val s).filters.trust_levels =
      s.filters.trust_levels.filter (· ≠ val) := by
  simp [trustToggleClick, h, Browse.loadArticles, List.mem_filter]

/-- The handler of a trust button whose class `active` is not set: the class
is added and the value pushed unless `trust_levels` includes it. -/
theorem trustToggleClick_inactive (val : String) (s : Browse) (h : val ∉ s.trustActive) :
    (trustToggleClick val s).trustActive = s.trustActive ++ [val] ∧
    (trustToggleClick val s).filters.trust_levels =
      if val ∈ s.filters.trust_levels then s.filters.trust_levels
      else s.filters.trust_levels ++ [val] := by
  by_cases hm : val ∈ s.filters.trust_levels <;>
    simp [trustToggleClick, h, hm, Browse.loadArticles]

/-- The initial page and the empty selection are tied. -/
theorem trustInv_init : TrustInv Browse.init Selection.empty where
  buttons := by intro l; simp [Browse.init, Selection.empty]
  levels := by intro l; simp [Browse.init, Selection.empty, currentFilters]
  nodup := by simp [Browse.init, currentFilters]
  ordered := by simp [Browse.init, currentFilters]
  past := by intro l t h; simp [Selection.empty] at h

/-- A click on a trust button and a toggle of the selection keep the two
tied. -/
theorem trustInv_toggle {s : Browse} {sel : Selection} (inv : TrustInv s sel) (val : String) :
    TrustInv (trustToggleClick val s) (sel.toggle val) := by
  by_cases h : val ∈ s.trustActive
  · obtain ⟨hb, hl⟩ := trustToggleClick_active val s h
    have hsome : (sel.activatedAt val).isSome = true := (inv.buttons val).1 h
    refine ⟨?_, ?_, ?_, ?_, ?_⟩
    · intro l
      rw [hb]
      by_cases hlv : l = val
      · simp [hlv, Selection.toggle, hsome]
      · simp [hlv, Selection.toggle, inv.buttons l]
    · intro l
      rw [hl]
      by_cases hlv : l = val
      · simp [hlv, Selection.toggle, hsome]
      · simp [hlv, Selection.toggle, inv.levels l]
    · rw [hl]; exact inv.nodup.filter _
    · rw [hl]
      refine (inv.ordered.filter _).imp_of_mem ?_
      intro a b ha hb2 hab ta tb hta htb
      have ha2 : a ≠ val := by simpa using (List.mem_filter.1 ha).2
      have hb3 : b ≠ val := by simpa using (List.mem_filter.1 hb2).2
      simp only [Selection.toggle, ha2, hb3, if_false] at hta htb
      exact hab ta tb hta htb
    · intro l t hlt
      by_cases hlv : l = val
      · simp [hlv, Selection.toggle, hsome] at hlt
      · simp only [Selection.toggle, hlv, if_false] at hlt
        exact Nat.lt_succ_of_lt (inv.past l t hlt)
  · obtain ⟨hb, hl⟩ := trustToggleClick_inactive val s h
    have hnone : (sel.activatedAt val).isSome = false := by
      rw [Bool.eq_false_iff]; exact fun hc => h ((inv.buttons val).2 hc)
    have hnot : val ∉ s.filters.trust_levels := fun hc => by
      rw [(inv.levels val).1 hc] at hnone; exact Bool.noConfusion hnone
    rw [if_neg hnot] at hl
    refine ⟨?_, ?_, ?_, ?_, ?_⟩
    · intro l
      rw [hb]
      by_cases hlv : l = val
      · simp [hlv, Selection.toggle, hnone]
      · simp [hlv, Selection.toggle, inv.buttons l]
    · intro l
      rw [hl]
      by_cases hlv : l = val
      · simp [hlv, Selection.toggle, hnone]
      · simp [hlv, Selection.toggle, inv.levels l]
    · rw [hl]
      exact List.Nodup.append inv.nodup (List.nodup_singleton val)
        (by simpa using hnot)
    · rw [hl, List.pairwise_append]
      refine ⟨?_, List.pairwise_singleton _ _, ?_⟩
      · refine inv.ordered.imp_of_mem ?_
        intro a b ha hb2 hab ta tb hta htb
        have ha2 : a ≠ val := fun hc => hnot (hc ▸ ha)
        have hb3 : b ≠ val := fun hc => hnot (hc ▸ hb2)
        simp only [Selection.toggle, ha2, hb3, if_false] at hta htb
        exact hab ta tb hta htb
      · intro a ha b hb2 ta tb hta htb
        have hbv : b = val := by simpa using hb2
        have ha2 : a ≠ val := fun hc => hnot (hc ▸ ha)
        subst hbv
        simp only [Selection.toggle, ha2, if_false] at hta
        simp [Selection.toggle, hnone] at htb
        have := inv.past a ta hta
        omega
    · intro l t hlt
      by_cases hlv : l = val
      · simp [hlv, Selection.toggle, hnone] at hlt
        show t < sel.clock + 1
        omega
      · simp only [Selection.toggle, hlv, if_false] at hlt
        exact Nat.lt_succ_of_lt (inv.past l t hlt)

/-- A run of trust toggles keeps the page and the selection tied. -/
theorem trustInv_run (toggles : List String) {s : Browse} {sel : Selection}
    (inv : TrustInv s sel) :
    TrustInv (runOps (trustToggles toggles) s) (toggles.foldl Selection.toggle sel) := by
  induction toggles generalizing s sel with
  | nil => exact inv
  | cons val rest ih => exact ih (trustInv_toggle inv val)

/-- The parameter `trust_level` of the query is the first entry of
`trust_levels`, when there is one. -/
theorem loadArticlesParams_trust_level {D : Type} (api : DateApi D) (now : D)
    (f : FilterState) :
    (loadArticlesParams api now f).get "trust_level" = f.trust_levels.head?.map .str := by
  simp only [loadArticlesParams, URLSearchParams.get]
  rcases htl : f.trust_levels with _ | ⟨first, rest⟩ <;>
  by_cases hc : f.category = "all" <;> by_cases hd : f.date = "all" <;>
  by_cases hz : f.score_min > 0 <;>
  simp [hc, hd, hz, List.lookup, htl]

/-- C6. After every sequence of toggles of trust buttons from the initial
page, `trust_levels` has no duplicate and holds exactly the active levels;
when a level is active the query forwards one `trust_level`; and the level
it forwards is the first-added one: active, with no active level activated
earlier. -/
theorem trust_level_first_added {D : Type} (api : DateApi D) (now : D)
    (toggles : List String) :
    (runOps (trustToggles toggles) Browse.init).filters.trust_levels.Nodup ∧
    (∀ l, l ∈ (runOps (trustToggles toggles) Browse.init).filters.trust_levels ↔
      ((Selection.after toggles).activatedAt l).isSome = true) ∧
    ((∃ l, ((Selection.after toggles).activatedAt l).isSome = true) →
      ∃ level, (loadArticlesParams api now
        (runOps (trustToggles toggles) Browse.init).filters).get "trust_level" =
          some (.str level)) ∧
    (∀ level, (loadArticlesParams api now
        (runOps (trustToggles toggles) Browse.init).filters).get "trust_level" =
          some (.str level) →
      (Selection.after toggles).IsFirstAdded level) := by
  have inv : TrustInv (runOps (trustToggles toggles) Browse.init) (Selection.after toggles) :=
    trustInv_run toggles trustInv_init
  refine ⟨inv.nodup, inv.levels, ?_, ?_⟩
  · rintro ⟨l, hl⟩
    rw [loadArticlesParams_trust_level]
    have hmem := (inv.levels l).2 hl
    rcases hL : (runOps (trustToggles toggles) Browse.init).filters.trust_levels with
      _ | ⟨first, rest⟩
    · rw [hL] at hmem; exact absurd hmem (List.not_mem_nil l)
    · exact ⟨first, rfl⟩
  · intro level hlevel
    rw [loadArticlesParams_trust_level] at hlevel
    have hord := inv.ordered
    have hlev := inv.levels
    rcases hL : (runOps (trustToggles toggles) Browse.init).filters.trust_levels with
      _ | ⟨first, rest⟩
    · rw [hL] at hlevel; simp at hlevel
    · rw [hL] at hlevel hord hlev
      have hfl : first = level := by simpa using hlevel
      subst hfl
      have hact := (hlev first).1 (List.mem_cons_self _ _)
      obtain ⟨t, ht⟩ := Option.isSome_iff_exists.1 hact
      refine ⟨t, ht, ?_⟩
      intro l t' hl
      have hmem : l ∈ first :: rest := (hlev l).2 (by rw [hl]; rfl)
      rcases List.mem_cons.1 hmem with heq | hrest
      · subst heq
        rw [ht] at hl
        exact le_of_eq (Option.some.inj hl)
      · exact le_of_lt ((List.pairwise_cons.1 hord).1 l hrest t t' ht hl)

/-- C6 after HIGH, MEDIUM, LOW are switched on and HIGH off again: MEDIUM is
forwarded, and MEDIUM is the first-added active level. -/
theorem trust_level_first_added_example :
    (∃ l, ((Selection.after ["HIGH", "MEDIUM", "LOW", "HIGH"]).activatedAt l).isSome = true) ∧
    (loadArticlesParams utcDate 0
      (runOps (trustToggles ["HIGH", "MEDIUM", "LOW", "HIGH"]) Browse.init).filters).get
        "trust_level" = some (.str "MEDIUM") ∧
    (Selection.after ["HIGH", "MEDIUM", "LOW", "HIGH"]).IsFirstAdded "MEDIUM" :=
  ⟨⟨"LOW", by decide⟩, by decide,
   (trust_level_first_added utcDate 0 ["HIGH", "MEDIUM", "LOW", "HIGH"]).2.2.2 "MEDIUM"
     (by decide)⟩

/-! ## Job Monitor: theorems -/

/-- The `catch` block of the click handler never runs: whatever the network
does, `apiCall` fulfils its promise and `setInterval` is called. -/
theorem collectBtnResume_sets_interval (originalHtml : JsString) (outcome : FetchOutcome Unit)
    (s : Monitor) :
    (collectBtnResume originalHtml outcome s).intervals =
      s.intervals ++ [(s.nextTimer, originalHtml)] ∧
    (collectBtnResume originalHtml outcome s).innerHTML = s.innerHTML ∧
    (collectBtnResume originalHtml outcome s).timeouts = s.timeouts ∧
    (collectBtnResume originalHtml outcome s).requests = s.requests := by
  unfold collectBtnResume apiCall
  cases apiCallTry outcome <;> simp

/-- An answered poll of an active job: one more request, the message on the
button, nothing else changed. -/
theorem run_pollRound_active (s : Monitor) (handle : Nat) (html : JsString) (data : StatusData)
    (htimer : s.intervals = [(handle, html)]) (hpoll : s.awaitingPoll = [])
    (hactive : data.is_collecting = true) :
    s.run (pollRound handle (okResponse data)) =
      { s with
        innerHTML := if truthy data.message then data.message.getD [] else utf16 "収集中...",
        requests := s.requests ++ [.collectStatus] } := by
  simp [Monitor.run, pollRound, Monitor.step, htimer, checkStatusTick, hpoll,
    checkStatusResume, apiCall, apiCallTry, okResponse, hactive]

/-- Answered polls of an active job leave the timer live and add one request
each. -/
theorem run_activePolls (html : JsString) (replies : List StatusData)
    (hactive : ∀ data ∈ replies, data.is_collecting = true) (s : Monitor)
    (htimer : s.intervals = [(0, html)]) (hpoll : s.awaitingPoll = []) :
    ∃ text, s.run (activePolls 0 replies) =
      { s with innerHTML := text,
               requests := s.requests ++ List.replicate replies.length .collectStatus } := by
  induction replies generalizing s with
  | nil => exact ⟨s.innerHTML, by simp [activePolls, Monitor.run]⟩
  | cons data rest ih =>
    have h1 := run_pollRound_active s 0 html data htimer hpoll
      (hactive data (List.mem_cons_self _ _))
    obtain ⟨text, h2⟩ := ih (fun d hd => hactive d (List.mem_cons_of_mem _ hd))
      (s.run (pollRound 0 (okResponse data))) (by rw [h1]; exact htimer) (by rw [h1]; exact hpoll)
    refine ⟨text, ?_⟩
    have h3 : s.run (activePolls 0 (data :: rest)) =
        (s.run (pollRound 0 (okResponse data))).run (activePolls 0 rest) := by
      simp [activePolls, Monitor.run, List.foldl_append]
    rw [h3, h2, h1]
    simp [List.replicate_succ]

/-- The state of a job that started and was polled while active. -/
theorem run_startedRun (html : JsString) (replies : List StatusData)
    (hactive : ∀ data ∈ replies, data.is_collecting = true) :
    ∃ text, (Monitor.init html).run (startedRun replies) =
      { innerHTML := text, disabled := true, intervals := [(0, html)], nextTimer := 1,
        requests := .collect :: List.replicate replies.length .collectStatus,
        awaitingStart := [], awaitingPoll := [], timeouts := [], calls := [], console := [] } := by
  have h0 : (Monitor.init html).run [.click, .startSettled 0 (okResponse ())] =
      { innerHTML := utf16 "実行中...", disabled := true, intervals := [(0, html)], nextTimer := 1,
        requests := [.collect], awaitingStart := [], awaitingPoll := [], timeouts := [],
        calls := [], console := [] } := by
    simp [Monitor.run, Monitor.step, Monitor.init, collectBtnClick, collectBtnResume, apiCall,
      apiCallTry, okResponse]
  obtain ⟨text, h1⟩ := run_activePolls html replies hactive
    ((Monitor.init html).run [.click, .startSettled 0 (okResponse ())])
    (by rw [h0]) (by rw [h0])
  refine ⟨text, ?_⟩
  have h2 : (Monitor.init html).run (startedRun replies) =
      ((Monitor.init html).run [.click, .startSettled 0 (okResponse ())]).run
        (activePolls 0 replies) := by
    simp [startedRun, Monitor.run, List.foldl_append]
  rw [h2, h1, h0]
  simp

/-- With no timer live and no start pending, an event other than a click
sends no request and creates no timer. -/
theorem step_no_timer (s : Monitor) (e : Event) (he : e.isClick = false)
    (htimer : s.intervals = []) (hstart : s.awaitingStart = []) :
    (s.step e).intervals = [] ∧ (s.step e).awaitingStart = [] ∧
    (s.step e).requests = s.requests := by
  cases e with
  | click => simp [Event.isClick] at he
  | startSettled i outcome => simp [Monitor.step, hstart, htimer]
  | tick handle => simp [Monitor.step, htimer, hstart]
  | pollSettled i outcome =>
    simp only [Monitor.step]
    cases hp : s.awaitingPoll[i]? with
    | none => simp [htimer, hstart]
    | some p =>
      simp only [checkStatusResume, apiCall]
      cases apiCallTry outcome with
      | error err => simp [htimer, hstart]
      | ok data =>
        by_cases hc : data.is_collecting = true <;> by_cases ht : truthy data.last_error = true <;>
          simp [hc, ht, clearInterval, htimer, hstart]
  | timeout i =>
    simp only [Monitor.step]
    cases ht : s.timeouts[i]? with
    | none => simp [htimer, hstart]
    | some t => cases hta : t.action <;> simp [TimeoutAction.run, hta, htimer, hstart]

/-- The same over a sequence of events. -/
theorem run_no_timer (later : List Event) (hlater : ∀ e ∈ later, e.isClick = false)
    (s : Monitor) (htimer : s.intervals = []) (hstart : s.awaitingStart = []) :
    (s.run later).intervals = [] ∧ (s.run later).requests = s.requests := by
  induction later generalizing s with
  | nil => exact ⟨htimer, rfl⟩
  | cons e rest ih =>
    obtain ⟨h1, h2, h3⟩ := step_no_timer s e (hlater e (List.mem_cons_self _ _)) htimer hstart
    have := ih (fun e he => hlater e (List.mem_cons_of_mem _ he)) (s.step e) h1 h2
    simpa [Monitor.run, h3] using this

/-- With nothing pending, an event other than a click does nothing. -/
theorem step_idle (s : Monitor) (e : Event) (he : e.isClick = false)
    (htimer : s.intervals = []) (hstart : s.awaitingStart = []) (hpoll : s.awaitingPoll = [])
    (htime : s.timeouts = []) : s.step e = s := by
  cases e with
  | click => simp [Event.isClick] at he
  | startSettled i outcome => simp [Monitor.step, hstart]
  | tick handle => simp [Monitor.step, htimer]
  | pollSettled i outcome => simp [Monitor.step, hpoll]
  | timeout i => simp [Monitor.step, htime]

/-- The same over a sequence of events. -/
theorem run_idle (later : List Event) (hlater : ∀ e ∈ later, e.isClick = false)
    (s : Monitor) (htimer : s.intervals = []) (hstart : s.awaitingStart = [])
    (hpoll : s.awaitingPoll = []) (htime : s.timeouts = []) : s.run later = s := by
  induction later with
  | nil => rfl
  | cons e rest ih =>
    have h1 := step_idle s e (hlater e (List.mem_cons_self _ _)) htimer hstart hpoll htime
    have h2 := ih (fun e he => hlater e (List.mem_cons_of_mem _ he))
    simpa [Monitor.run, h1] using h2

/-- C1, the code at a failed start.  `POST /collect` fails with a network
error: the handler still calls `setInterval`, the timer fires and sends
`GET /collect/status`, the button never shows the communication error and
no revert is scheduled for it; when the backend answers the poll, the button
shows the text of a completed job. -/
theorem failed_start_is_polled :
    ((Monitor.init (utf16 "収集")).run (failedStartRun.take 2)).intervals =
      [(0, utf16 "収集")] ∧
    ((Monitor.init (utf16 "収集")).run (failedStartRun.take 2)).innerHTML =
      utf16 "実行中..." ∧
    ((Monitor.init (utf16 "収集")).run (failedStartRun.take 2)).timeouts = [] ∧
    ((Monitor.init (utf16 "収集")).run (failedStartRun.take 3)).polls = 1 ∧
    ((Monitor.init (utf16 "収集")).run failedStartRun).innerHTML = utf16 "収集完了" := by
  decide

/-- C2 fails at the empty error string, and where two timers are live: with
`is_collecting = false` and `last_error = ""` the button shows the text of a
completed job; and in the state with two live timers that `overlappingRun`
reaches, a failed answer to the poll of timer 1 leaves timer 2 live, whose
next tick sends another poll request. -/
theorem empty_last_error_shows_completed :
    (finishedEmptyError.is_collecting = false ∧
      finishedEmptyError.last_error = some (utf16 "") ∧
      pollingState.intervals = [(0, utf16 "収集")] ∧
      (pollingState.step (.pollSettled 0 (okResponse finishedEmptyError))).innerHTML =
        utf16 "収集完了") ∧
    (twoTimerPolling.awaitingPoll = [(1, utf16 "収集")] ∧
      (twoTimerPolling.step (.pollSettled 0 (okResponse finishedTimeout))).intervals =
        [(2, utf16 "収集")] ∧
      ((twoTimerPolling.step (.pollSettled 0 (okResponse finishedTimeout))).step
        (.tick 2)).polls = twoTimerPolling.polls + 1) := by
  decide

/-- C4, the code on a run with slow answers: the button is enabled while the
timer of the second job is live, the third click sends a third
`POST /collect`, and two poll timers are live at the end; the refresh has
run twice for the first job. -/
theorem overlapping_run_two_timers :
    ((Monitor.init (utf16 "収集")).run (overlappingRun.take 12)).intervals =
      [(1, utf16 "収集")] ∧
    ((Monitor.init (utf16 "収集")).run (overlappingRun.take 12)).disabled = false ∧
    ((Monitor.init (utf16 "収集")).run (overlappingRun.take 12)).starts = 2 ∧
    ((Monitor.init (utf16 "収集")).run (overlappingRun.take 13)).starts = 3 ∧
    ((Monitor.init (utf16 "収集")).run overlappingRun).intervals =
      [(1, utf16 "収集"), (2, utf16 "収集")] ∧
    ((Monitor.init (utf16 "収集")).run (overlappingRun.take 8)).calls =
      [.loadStats, .loadArticles, .loadStats, .loadArticles] := by
  decide

/-- The error text on the button is never the completion text. -/
theorem error_text_ne_completed (text tail : JsString) :
    utf16 "エラー: " ++ text ++ tail ≠ utf16 "収集完了" := by
  intro h
  have e1 : utf16 "エラー: " = 12456 :: utf16 "ラー: " := by decide
  have e2 : utf16 "収集完了" = 21454 :: utf16 "集完了" := by decide
  rw [e1, e2] at h
  simp only [List.cons_append] at h
  exact absurd (List.cons.inj h).1 (by decide)

/-- The first `n` code units of a string, as `substring(0, n)` gives them. -/
theorem substring_zero (str : JsString) (n : Nat) : substring str 0 n = str.take n := by
  simp [substring]

/-- Of 15 characters outside the Basic Multilingual Plane, `substring(0, 20)`
keeps 10: it counts code units. -/
theorem substring_counts_code_units :
    (utf16 "😀😀😀😀😀😀😀😀😀😀😀😀😀😀😀").length = 30 ∧
    substring (utf16 "😀😀😀😀😀😀😀😀😀😀😀😀😀😀😀") 0 20 = utf16 "😀😀😀😀😀😀😀😀😀😀" := by
  decide

/-- Every event keeps the handles fresh. -/
theorem fresh_step (s : Monitor) (e : Event) (hs : s.Fresh) : (s.step e).Fresh := by
  obtain ⟨h1, h2⟩ := hs
  cases e with
  | click =>
    simp only [Monitor.step]
    split_ifs
    · exact ⟨h1, h2⟩
    · exact ⟨h1, h2⟩
  | startSettled i outcome =>
    simp only [Monitor.step]
    cases hst : s.awaitingStart[i]? with
    | none => exact ⟨h1, h2⟩
    | some o =>
      simp only [collectBtnResume, apiCall]
      cases apiCallTry outcome with
      | error err =>
        refine ⟨?_, ?_⟩
        · intro t ht
          simp only [List.mem_append, List.mem_singleton] at ht
          rcases ht with ht | ht
          · exact Nat.lt_succ_of_lt (h1 t ht)
          · subst ht; exact Nat.lt_succ_self _
        · intro q hq
          exact Nat.lt_succ_of_lt (h2 q hq)
      | ok data =>
        refine ⟨?_, ?_⟩
        · intro t ht
          simp only [List.mem_append, List.mem_singleton] at ht
          rcases ht with ht | ht
          · exact Nat.lt_succ_of_lt (h1 t ht)
          · subst ht; exact Nat.lt_succ_self _
        · intro q hq
          exact Nat.lt_succ_of_lt (h2 q hq)
  | tick handle =>
    simp only [Monitor.step]
    cases hf : s.intervals.find? (fun t => t.1 = handle) with
    | none => exact ⟨h1, h2⟩
    | some t =>
      refine ⟨h1, ?_⟩
      intro q hq
      simp only [checkStatusTick, List.mem_append, List.mem_singleton] at hq
      rcases hq with hq | hq
      · exact h2 q hq
      · subst hq; exact h1 t (List.mem_of_find?_eq_some hf)
  | pollSettled i outcome =>
    simp only [Monitor.step]
    cases hp : s.awaitingPoll[i]? with
    | none => exact ⟨h1, h2⟩
    | some q =>
      have hsub : ∀ r ∈ s.awaitingPoll.eraseIdx i, r.1 < s.nextTimer :=
        fun r hr => h2 r ((List.eraseIdx_sublist _ _).subset hr)
      simp only [checkStatusResume, apiCall]
      cases apiCallTry outcome with
      | error err => exact ⟨h1, hsub⟩
      | ok data =>
        by_cases hc : data.is_collecting = true
        · simp only [hc, if_true]; exact ⟨h1, hsub⟩
        · by_cases hl : truthy data.last_error = true
          · simp only [hc, hl, if_true, clearInterval]
            exact ⟨fun t ht => h1 t (List.mem_filter.1 ht).1, hsub⟩
          · simp only [hc, hl, clearInterval]
            exact ⟨fun t ht => h1 t (List.mem_filter.1 ht).1, hsub⟩
  | timeout i =>
    simp only [Monitor.step]
    cases ht : s.timeouts[i]? with
    | none => exact ⟨h1, h2⟩
    | some t =>
      cases hta : t.action <;> simp only [TimeoutAction.run, hta] <;> exact ⟨h1, h2⟩

/-- Every reachable state has fresh handles. -/
theorem reachable_fresh (s : Monitor) (hs : s.Reachable) : s.Fresh := by
  obtain ⟨html, events, rfl⟩ := hs
  have hgen : ∀ (events : List Event) (s : Monitor), s.Fresh → (s.run events).Fresh := by
    intro events
    induction events with
    | nil => exact fun s hs => hs
    | cons e rest ih => exact fun s hs => ih (s.step e) (fresh_step s e hs)
  exact hgen events _ ⟨by simp [Monitor.init], by simp [Monitor.init]⟩

/-- A cancelled timer stays cancelled: `setInterval` gives out new handles
only. -/
theorem cancelled_step (handle : Nat) (s : Monitor) (e : Event)
    (hs : s.Cancelled handle) : (s.step e).Cancelled handle := by
  obtain ⟨h1, h2⟩ := hs
  cases e with
  | click =>
    simp only [Monitor.step]
    split_ifs
    · exact ⟨h1, h2⟩
    · exact ⟨h1, h2⟩
  | startSettled i outcome =>
    simp only [Monitor.step]
    cases hst : s.awaitingStart[i]? with
    | none => exact ⟨h1, h2⟩
    | some o =>
      simp only [collectBtnResume, apiCall]
      cases apiCallTry outcome with
      | error err =>
        refine ⟨Nat.lt_succ_of_lt h1, ?_⟩
        intro t ht
        simp only [List.mem_append, List.mem_singleton] at ht
        rcases ht with ht | ht
        · exact h2 t ht
        · subst ht; exact Nat.ne_of_gt h1
      | ok data =>
        refine ⟨Nat.lt_succ_of_lt h1, ?_⟩
        intro t ht
        simp only [List.mem_append, List.mem_singleton] at ht
        rcases ht with ht | ht
        · exact h2 t ht
        · subst ht; exact Nat.ne_of_gt h1
  | tick other =>
    simp only [Monitor.step]
    cases hf : s.intervals.find? (fun t => t.1 = other) with
    | none => exact ⟨h1, h2⟩
    | some t => exact ⟨h1, h2⟩
  | pollSettled i outcome =>
    simp only [Monitor.step]
    cases hp : s.awaitingPoll[i]? with
    | none => exact ⟨h1, h2⟩
    | some q =>
      simp only [checkStatusResume, apiCall]
      cases apiCallTry outcome with
      | error err => exact ⟨h1, h2⟩
      | ok data =>
        by_cases hc : data.is_collecting = true
        · simp only [hc, if_true]; exact ⟨h1, h2⟩
        · by_cases hl : truthy data.last_error = true
          · simp only [hc, hl, if_true, clearInterval]
            exact ⟨h1, fun t ht => h2 t (List.mem_filter.1 ht).1⟩
          · simp only [hc, hl, clearInterval]
            exact ⟨h1, fun t ht => h2 t (List.mem_filter.1 ht).1⟩
  | timeout i =>
    simp only [Monitor.step]
    cases ht : s.timeouts[i]? with
    | none => exact ⟨h1, h2⟩
    | some t =>
      cases hta : t.action <;> simp only [TimeoutAction.run, hta] <;> exact ⟨h1, h2⟩

/-- The same over a sequence of events. -/
theorem cancelled_run (handle : Nat) (events : List Event) (s : Monitor)
    (hs : s.Cancelled handle) : (s.run events).Cancelled handle := by
  induction events generalizing s with
  | nil => exact hs
  | cons e rest ih => exact ih (s.step e) (cancelled_step handle s e hs)

/-- The tick of a cancelled timer does nothing. -/
theorem tick_cancelled (handle : Nat) (s : Monitor) (hs : s.Cancelled handle) :
    s.step (.tick handle) = s := by
  have hnone : s.intervals.find? (fun t => t.1 = handle) = none := by
    rw [List.find?_eq_none]
    intro t ht
    simpa using hs.2 t ht
  simp [Monitor.step, hnone]

/-- C2, amended.  In every reachable state, an answer with
`is_collecting = false` and a `last_error` that is neither `null` nor empty
puts the error text on the button (`エラー: `, the first 20 code units of
`last_error`, `...`; not the completion text), logs the error in full,
cancels in the same step the timer whose tick sent the request, schedules
the refresh and sends nothing; that timer is never live again and its tick
sends nothing, whatever happens later; and when it was the only live timer
and no start was pending, no event other than a new click sends a poll
request or creates a timer afterwards. -/
theorem poll_failed_cancels_timer (s : Monitor) (i handle : Nat)
    (originalHtml err : JsString) (data : StatusData) (later quiet : List Event)
    (hreach : s.Reachable)
    (hpoll : s.awaitingPoll[i]? = some (handle, originalHtml))
    (hdone : data.is_collecting = false) (herr : data.last_error = some err) (hne : err ≠ [])
    (hquiet : ∀ e ∈ quiet, e.isClick = false) :
    (s.step (.pollSettled i (okResponse data))).innerHTML =
      utf16 "エラー: " ++ substring err 0 20 ++ utf16 "..." ∧
    (s.step (.pollSettled i (okResponse data))).innerHTML ≠ utf16 "収集完了" ∧
    (s.step (.pollSettled i (okResponse data))).console =
      s.console ++ [utf16 "Collection Error: " ++ err] ∧
    (s.step (.pollSettled i (okResponse data))).intervals =
      s.intervals.filter (fun t => t.1 ≠ handle) ∧
    (s.step (.pollSettled i (okResponse data))).timeouts =
      s.timeouts ++ [{ delay := 1000, action := .refresh originalHtml }] ∧
    (s.step (.pollSettled i (okResponse data))).polls = s.polls ∧
    (∀ t ∈ ((s.step (.pollSettled i (okResponse data))).run later).intervals,
      t.1 ≠ handle) ∧
    ((s.step (.pollSettled i (okResponse data))).run later).step (.tick handle) =
      (s.step (.pollSettled i (okResponse data))).run later ∧
    (s.intervals = [(handle, originalHtml)] → s.awaitingStart = [] →
      ((s.step (.pollSettled i (okResponse data))).run quiet).polls = s.polls ∧
      ((s.step (.pollSettled i (okResponse data))).run quiet).intervals = []) := by
  have htruthy : truthy (some err) = true := by simp [truthy, hne]
  have hstep : s.step (.pollSettled i (okResponse data)) =
      { s with
        awaitingPoll := s.awaitingPoll.eraseIdx i,
        intervals := s.intervals.filter (fun t => t.1 ≠ handle),
        innerHTML := utf16 "エラー: " ++ substring err 0 20 ++ utf16 "...",
        console := s.console ++ [utf16 "Collection Error: " ++ err],
        timeouts := s.timeouts ++ [{ delay := 1000, action := .refresh originalHtml }] } := by
    simp [Monitor.step, hpoll, checkStatusResume, apiCall, apiCallTry, okResponse, hdone, herr,
      htruthy, clearInterval]
  have hfresh := reachable_fresh s hreach
  have hlt : handle < s.nextTimer := hfresh.2 (handle, originalHtml) (List.getElem?_mem hpoll)
  have hcancel : (s.step (.pollSettled i (okResponse data))).Cancelled handle := by
    rw [hstep]
    exact ⟨hlt, fun t ht => by simpa using (List.mem_filter.1 ht).2⟩
  have hlaterc := cancelled_run handle later _ hcancel
  refine ⟨by simp only [hstep], ?_, by simp only [hstep], by simp only [hstep],
    by simp only [hstep], by simp only [Monitor.polls, hstep], hlaterc.2,
    tick_cancelled handle _ hlaterc, ?_⟩
  · simp only [hstep]
    exact error_text_ne_completed _ _
  · intro htimer hstart
    have hempty : (s.step (.pollSettled i (okResponse data))).intervals = [] := by
      simp [hstep, htimer]
    have hquiet2 := run_no_timer quiet hquiet (s.step (.pollSettled i (okResponse data)))
      hempty (by simp only [hstep]; exact hstart)
    have h3 : (s.step (.pollSettled i (okResponse data))).requests = s.requests := by
      simp only [hstep]
    refine ⟨?_, hquiet2.1⟩
    unfold Monitor.polls
    rw [hquiet2.2, h3]

/-- C2, amended, on the first poll of a job: the answer carries an error of
29 code units, the button shows the first 20, and the timer does not fire
again. -/
theorem poll_failed_cancels_timer_example :
    (pollingState.Reachable ∧ pollingState.awaitingPoll[0]? = some (0, utf16 "収集") ∧
      finishedTimeout.is_collecting = false ∧
      finishedTimeout.last_error = some (utf16 "feed timeout after 30 seconds") ∧
      utf16 "feed timeout after 30 seconds" ≠ [] ∧
      pollingState.intervals = [(0, utf16 "収集")] ∧ pollingState.awaitingStart = []) ∧
    (pollingState.step (.pollSettled 0 (okResponse finishedTimeout))).innerHTML =
      utf16 "エラー: feed timeout after 3..." ∧
    (pollingState.step (.pollSettled 0 (okResponse finishedTimeout))).intervals =
      pollingState.intervals.filter (fun t => t.1 ≠ 0) ∧
    ((pollingState.step (.pollSettled 0 (okResponse finishedTimeout))).run
        [.timeout 0, .click, .tick 0]).step (.tick 0) =
      (pollingState.step (.pollSettled 0 (okResponse finishedTimeout))).run
        [.timeout 0, .click, .tick 0] ∧
    ((pollingState.step (.pollSettled 0 (okResponse finishedTimeout))).run
      [.tick 0, .timeout 0, .tick 0, .timeout 0, .tick 0]).polls = pollingState.polls := by
  have hreach : pollingState.Reachable := ⟨utf16 "収集", _, rfl⟩
  have h := poll_failed_cancels_timer pollingState 0 0 (utf16 "収集")
    (utf16 "feed timeout after 30 seconds") finishedTimeout [.timeout 0, .click, .tick 0]
    [.tick 0, .timeout 0, .tick 0, .timeout 0, .tick 0]
    hreach (by decide) (by decide) (by decide) (by decide) (by simp [Event.isClick])
  exact ⟨⟨hreach, by decide, by decide, by decide, by decide, by decide, by decide⟩,
    by decide, h.2.2.2.1, h.2.2.2.2.2.2.2.1,
    (h.2.2.2.2.2.2.2.2 (by decide) (by decide)).1⟩

/-- C3 fails when an answer is slow: the start succeeds and the first poll
reports the job finished without error (`n = 0`), but the timer fires a
second time before that answer arrives; two poll requests are sent and the
refresh runs twice. -/
theorem overlapping_polls_refresh_twice :
    finishedOk.is_collecting = false ∧ finishedOk.last_error = none ∧
    ((Monitor.init (utf16 "収集")).run (overlappingPolls.take 5)).innerHTML =
      utf16 "収集完了" ∧
    ((Monitor.init (utf16 "収集")).run (overlappingPolls.take 5)).intervals = [] ∧
    ((Monitor.init (utf16 "収集")).run (overlappingPolls.take 5)).polls = 2 ∧
    ((Monitor.init (utf16 "収集")).run overlappingPolls).polls = 2 ∧
    ((Monitor.init (utf16 "収集")).run overlappingPolls).calls =
      [.loadStats, .loadArticles, .loadStats, .loadArticles] := by
  decide

/-- C3, amended.  For every list of `n` answers with `is_collecting = true` and a last
answer with `is_collecting = false` and `last_error = null`, each answer
arriving before the timer fires again: when poll `n + 1` is sent the timer
is live and `n + 1` requests have gone out; its answer puts the completion
text on the button and cancels the timer, the button still disabled and no
refresh made yet; the first timeout calls `loadStats` and `loadArticles`;
the second restores the button to its original content and enables it,
leaving a state with one `POST /collect`, `n + 1` polls, one refresh and
nothing pending, in which no event other than a new click changes
anything. -/
theorem collect_run_completes (html : JsString) (replies : List StatusData) (final : StatusData)
    (later : List Event)
    (hactive : ∀ data ∈ replies, data.is_collecting = true)
    (hdone : final.is_collecting = false) (hnull : final.last_error = none)
    (hlater : ∀ e ∈ later, e.isClick = false) :
    ((Monitor.init html).run (startedRun replies ++ [.tick 0])).intervals = [(0, html)] ∧
    ((Monitor.init html).run (startedRun replies ++ [.tick 0])).polls = replies.length + 1 ∧
    ((Monitor.init html).run (startedRun replies ++ pollRound 0 (okResponse final))) =
      { innerHTML := utf16 "収集完了", disabled := true, intervals := [], nextTimer := 1,
        requests := .collect :: List.replicate (replies.length + 1) .collectStatus,
        awaitingStart := [], awaitingPoll := [],
        timeouts := [{ delay := 1000, action := .refresh html }],
        calls := [], console := [] } ∧
    ((Monitor.init html).run
        (startedRun replies ++ pollRound 0 (okResponse final) ++ [.timeout 0])) =
      { innerHTML := utf16 "収集完了", disabled := true, intervals := [], nextTimer := 1,
        requests := .collect :: List.replicate (replies.length + 1) .collectStatus,
        awaitingStart := [], awaitingPoll := [],
        timeouts := [{ delay := 5000, action := .revert html }],
        calls := [.loadStats, .loadArticles], console := [] } ∧
    ((Monitor.init html).run
        (startedRun replies ++ pollRound 0 (okResponse final) ++ [.timeout 0, .timeout 0])) =
      { innerHTML := html, disabled := false, intervals := [], nextTimer := 1,
        requests := .collect :: List.replicate (replies.length + 1) .collectStatus,
        awaitingStart := [], awaitingPoll := [], timeouts := [],
        calls := [.loadStats, .loadArticles], console := [] } ∧
    ((Monitor.init html).run
        (startedRun replies ++ pollRound 0 (okResponse final) ++ [.timeout 0, .timeout 0]
          ++ later)).polls = replies.length + 1 ∧
    ((Monitor.init html).run
        (startedRun replies ++ pollRound 0 (okResponse final) ++ [.timeout 0, .timeout 0]
          ++ later)).calls = [.loadStats, .loadArticles] := by
  obtain ⟨text, hrun⟩ := run_startedRun html replies hactive
  have htruthy : truthy (none : Option JsString) = false := rfl
  have hcount : ∀ n, List.count Request.collectStatus
      (Request.collect :: List.replicate n Request.collectStatus) = n := by
    intro n
    rw [List.count_cons_of_ne (by decide), List.count_replicate_self]
  have hsnoc : ∀ n, List.replicate n Request.collectStatus ++ [Request.collectStatus] =
      List.replicate (n + 1) Request.collectStatus := by
    intro n
    rw [List.replicate_add]; rfl
  have hdone3 : ((Monitor.init html).run
      (startedRun replies ++ pollRound 0 (okResponse final) ++ [.timeout 0, .timeout 0])) =
      { innerHTML := html, disabled := false, intervals := [], nextTimer := 1,
        requests := .collect :: List.replicate (replies.length + 1) .collectStatus,
        awaitingStart := [], awaitingPoll := [], timeouts := [],
        calls := [.loadStats, .loadArticles], console := [] } := by
    simp [Monitor.run, List.foldl_append] at hrun ⊢
    simp [hrun, pollRound, Monitor.step, checkStatusTick, checkStatusResume, apiCall,
      apiCallTry, okResponse, hdone, hnull, htruthy, clearInterval, TimeoutAction.run, hsnoc]
  refine ⟨?_, ?_, ?_, ?_, hdone3, ?_, ?_⟩
  · simp [Monitor.run, List.foldl_append] at hrun ⊢
    simp [hrun, Monitor.step, checkStatusTick]
  · simp [Monitor.run, List.foldl_append] at hrun ⊢
    simp [hrun, Monitor.step, checkStatusTick, Monitor.polls, hsnoc, hcount]
  · simp [Monitor.run, List.foldl_append] at hrun ⊢
    simp [hrun, pollRound, Monitor.step, checkStatusTick, checkStatusResume, apiCall,
      apiCallTry, okResponse, hdone, hnull, htruthy, clearInterval, hsnoc]
  · simp [Monitor.run, List.foldl_append] at hrun ⊢
    simp [hrun, pollRound, Monitor.step, checkStatusTick, checkStatusResume, apiCall,
      apiCallTry, okResponse, hdone, hnull, htruthy, clearInterval, TimeoutAction.run, hsnoc]
  · have hsplit : (Monitor.init html).run
        (startedRun replies ++ pollRound 0 (okResponse final) ++ [.timeout 0, .timeout 0]
          ++ later) =
        ((Monitor.init html).run
          (startedRun replies ++ pollRound 0 (okResponse final) ++
            [.timeout 0, .timeout 0])).run later := by
      simp [Monitor.run, List.foldl_append]
    rw [hsplit, run_idle later hlater _ (by rw [hdone3]) (by rw [hdone3]) (by rw [hdone3])
      (by rw [hdone3]), hdone3]
    simp [Monitor.polls, hcount]
  · have hsplit : (Monitor.init html).run
        (startedRun replies ++ pollRound 0 (okResponse final) ++ [.timeout 0, .timeout 0]
          ++ later) =
        ((Monitor.init html).run
          (startedRun replies ++ pollRound 0 (okResponse final) ++
            [.timeout 0, .timeout 0])).run later := by
      simp [Monitor.run, List.foldl_append]
    rw [hsplit, run_idle later hlater _ (by rw [hdone3]) (by rw [hdone3]) (by rw [hdone3])
      (by rw [hdone3]), hdone3]

/-- C3, amended, on scenario B of the specification: three active answers, then the
finished one; four polls, one refresh, the button back to its text. -/
theorem collect_run_completes_scenarioB :
    (∀ data ∈ scenarioB, data.is_collecting = true) ∧
    finishedOk.is_collecting = false ∧ finishedOk.last_error = none ∧
    ((Monitor.init (utf16 "収集")).run
        (startedRun scenarioB ++ pollRound 0 (okResponse finishedOk) ++
          [.timeout 0, .timeout 0])) =
      { innerHTML := utf16 "収集", disabled := false, intervals := [], nextTimer := 1,
        requests := .collect :: List.replicate (scenarioB.length + 1) .collectStatus,
        awaitingStart := [], awaitingPoll := [], timeouts := [],
        calls := [.loadStats, .loadArticles], console := [] } ∧
    ((Monitor.init (utf16 "収集")).run
        (startedRun scenarioB ++ pollRound 0 (okResponse finishedOk) ++
          [.timeout 0, .timeout 0] ++ [.tick 0, .tick 0])).polls = scenarioB.length + 1 :=
  ⟨by decide, by decide, by decide,
   (collect_run_completes (utf16 "収集") scenarioB finishedOk [.tick 0, .tick 0] (by decide)
     (by decide) (by decide) (by simp [Event.isClick])).2.2.2.2.1,
   (collect_run_completes (utf16 "収集") scenarioB finishedOk [.tick 0, .tick 0] (by decide)
     (by decide) (by decide) (by simp [Event.isClick])).2.2.2.2.2.1⟩

/-! ## One job at a time, when the polls stay in order -/

/-- Two clicks in a row send one `POST /collect`: the first disables the
button. -/
theorem double_click_one_start (html : JsString) :
    ((Monitor.init html).run [.click, .click]).starts = 1 ∧
    ((Monitor.init html).run [.click, .click]) = (Monitor.init html).run [.click] := by
  simp [Monitor.run, Monitor.step, Monitor.init, collectBtnClick, Monitor.starts]

/-- An event that keeps the polls in order takes a supervised state to a
supervised state. -/
theorem supervised_step {s : Monitor} (hs : s.Supervised) (e : Event)
    (he : s.inOrder e = true) : (s.step e).Supervised := by
  rcases hs with ⟨hd, hi, hst, hp, ht⟩ | ⟨hd, hi, ⟨o, hst⟩, hp, ht⟩ |
    ⟨hd, ⟨t, hi, hp⟩, hst, ht⟩ | ⟨hd, hi, hst, hp, ⟨t, ht⟩⟩
  · cases e with
    | click =>
      right; left
      simp [Monitor.step, hd, collectBtnClick, hi, hst, hp, ht]
    | startSettled i outcome => left; simp [Monitor.step, hd, hi, hst, hp, ht]
    | tick handle => left; simp [Monitor.step, hd, hi, hst, hp, ht]
    | pollSettled i outcome => left; simp [Monitor.step, hd, hi, hst, hp, ht]
    | timeout i => left; simp [Monitor.step, hd, hi, hst, hp, ht]
  · cases e with
    | click => right; left; simp [Monitor.step, hd, hi, hst, hp, ht]
    | startSettled i outcome =>
      cases i with
      | zero =>
        right; right; left
        simp only [Monitor.step, hst, collectBtnResume, apiCall]
        cases apiCallTry outcome <;> simp [hd, hi, hp, ht]
      | succ k => right; left; simp [Monitor.step, hd, hi, hst, hp, ht]
    | tick handle => right; left; simp [Monitor.step, hd, hi, hst, hp, ht]
    | pollSettled i outcome => right; left; simp [Monitor.step, hd, hi, hst, hp, ht]
    | timeout i => right; left; simp [Monitor.step, hd, hi, hst, hp, ht]
  · cases e with
    | click => right; right; left; simp [Monitor.step, hd, hi, hst, hp, ht]
    | startSettled i outcome =>
      right; right; left; simp [Monitor.step, hd, hi, hst, hp, ht]
    | tick handle =>
      have hempty : s.awaitingPoll = [] := by simpa [Monitor.inOrder] using he
      right; right; left
      by_cases hh : t.1 = handle
      · subst hh
        simp [Monitor.step, hi, checkStatusTick, hd, hst, ht, hempty]
      · simp [Monitor.step, hi, hh, hd, hst, ht, hempty]
    | pollSettled i outcome =>
      rcases hp with hp | hp
      · right; right; left; simp [Monitor.step, hd, hi, hst, hp, ht]
      · cases i with
        | succ k => right; right; left; simp [Monitor.step, hd, hi, hst, hp, ht]
        | zero =>
          simp only [Monitor.step, hp, checkStatusResume, apiCall]
          cases apiCallTry outcome with
          | error err => right; right; left; simp [hd, hi, hst, ht]
          | ok data =>
            by_cases hc : data.is_collecting = true
            · right; right; left; simp [hc, hd, hi, hst, ht]
            · right; right; right
              by_cases hl : truthy data.last_error = true <;>
                simp [hc, hl, clearInterval, hd, hi, hst, ht]
    | timeout i => right; right; left; simp [Monitor.step, hd, hi, hst, hp, ht]
  · cases e with
    | click => right; right; right; simp [Monitor.step, hd, hi, hst, hp, ht]
    | startSettled i outcome =>
      right; right; right; simp [Monitor.step, hd, hi, hst, hp, ht]
    | tick handle => right; right; right; simp [Monitor.step, hd, hi, hst, hp, ht]
    | pollSettled i outcome =>
      right; right; right; simp [Monitor.step, hd, hi, hst, hp, ht]
    | timeout i =>
      cases i with
      | succ k => right; right; right; simp [Monitor.step, hd, hi, hst, hp, ht]
      | zero =>
        cases hta : t.action with
        | refresh originalHtml =>
          right; right; right
          simp [Monitor.step, ht, TimeoutAction.run, hta, hd, hi, hst, hp]
        | revert originalHtml =>
          left
          simp [Monitor.step, ht, TimeoutAction.run, hta, hi, hst, hp]

/-- A run that keeps the polls in order stays supervised. -/
theorem supervised_run (events : List Event) {s : Monitor} (hs : s.Supervised)
    (hord : s.ordered events = true) : (s.run events).Supervised := by
  induction events generalizing s with
  | nil => exact hs
  | cons e rest ih =>
    simp only [Monitor.ordered, Bool.and_eq_true] at hord
    exact ih (supervised_step hs e hord.1) hord.2

/-- When the polls stay in order, from the initial page: at most one poll
timer is live, a timer is live or a start pending only while the button is
disabled, and a click on the disabled button changes nothing. -/
theorem ordered_run_one_timer (html : JsString) (events : List Event)
    (hord : (Monitor.init html).ordered events = true) :
    ((Monitor.init html).run events).intervals.length ≤ 1 ∧
    (((Monitor.init html).run events).intervals ≠ [] ∨
      ((Monitor.init html).run events).awaitingStart ≠ [] →
        ((Monitor.init html).run events).disabled = true) ∧
    (((Monitor.init html).run events).disabled = true →
      ((Monitor.init html).run events).step .click = (Monitor.init html).run events) := by
  have hs : ((Monitor.init html).run events).Supervised :=
    supervised_run events (Or.inl ⟨rfl, rfl, rfl, rfl, rfl⟩) hord
  refine ⟨?_, ?_, ?_⟩
  · rcases hs with ⟨_, hi, _⟩ | ⟨_, hi, _⟩ | ⟨_, ⟨t, hi, _⟩, _⟩ | ⟨_, hi, _⟩ <;> simp [hi]
  · rcases hs with ⟨_, hi, hst, _⟩ | ⟨hd, _⟩ | ⟨hd, _⟩ | ⟨hd, _⟩
    · simp [hi, hst]
    · exact fun _ => hd
    · exact fun _ => hd
    · exact fun _ => hd
  · intro hd
    simp [Monitor.step, hd]

end AiKnowledgeHub
